import Mathlib

/-!
Formal model of `backend/open_webui/utils/vmc.py` (VMC protocol module:
blendshape sanitizer, quaternion helpers, recorder, layered player, frame
conversion, preset store).

Modelling conventions:
* Python floats are modelled exactly: blendshape values, positions and
  timestamps are rationals (`ℚ`); quaternion components are reals (`ℝ`)
  because `_quat_normalize` divides by `math.sqrt`.  Real-valued
  definitions are `noncomputable` (real square roots and division are not
  computable in Lean); all string/rational machinery stays computable.
* Python dicts are association lists (`List (key × value)`); lookups take
  the first match, which coincides with dict lookup since dict keys are
  unique.  Iteration order of Python `set`s is unspecified, so unions of
  key sets are modelled by `(xs ++ ys).dedup`; every theorem below is
  stated through lookups/membership and is insensitive to that order.
* A Python frame dict may lack the `"t"` / `"bones"` keys, hence those
  fields are `Option`s; a missing `"blendshapes"` key is read as `{}`
  everywhere in the source, so that field is a plain (possibly empty)
  list.  A falsy frame (`None` or `{}`) is modelled as `none` at
  `Option Frame` call sites.
-/

namespace VMC

/-- Quaternion in `[x, y, z, w]` format (components are Python floats,
modelled as reals). -/
structure Quat where
  x : ℝ
  y : ℝ
  z : ℝ
  w : ℝ

/-- Model of `_quat_identity`: `[0.0, 0.0, 0.0, 1.0]`. -/
def quat_identity : Quat := ⟨0, 0, 0, 1⟩

/-- Model of `_quat_multiply`: Hamilton product `a * b` in `[x,y,z,w]`
format. -/
def quat_multiply (a b : Quat) : Quat :=
  ⟨a.w * b.x + a.x * b.w + a.y * b.z - a.z * b.y,
   a.w * b.y - a.x * b.z + a.y * b.w + a.z * b.x,
   a.w * b.z + a.x * b.y - a.y * b.x + a.z * b.w,
   a.w * b.w - a.x * b.x - a.y * b.y - a.z * b.z⟩

/-- Model of `_quat_inverse`: conjugate of a unit quaternion. -/
def quat_inverse (q : Quat) : Quat := ⟨-q.x, -q.y, -q.z, q.w⟩

/-- Model of `_quat_normalize`: divide by the magnitude, or return the
identity when the magnitude is below `1e-10`. -/
noncomputable def quat_normalize (q : Quat) : Quat :=
  let mag := Real.sqrt (q.x * q.x + q.y * q.y + q.z * q.z + q.w * q.w)
  if mag < 1e-10 then quat_identity
  else ⟨q.x / mag, q.y / mag, q.z / mag, q.w / mag⟩

/-- Blendshape map: Python `dict[str, float]`. -/
abbrev BSMap := List (String × ℚ)

/-- Dict read with default: Python `m.get(k, d)`. -/
def getD (m : BSMap) (k : String) (d : ℚ) : ℚ := (m.lookup k).getD d

/-- Model of `_EYE_BLINK_NAMES` (a frozenset; order immaterial, only
membership is ever queried). -/
def eye_blink_names : List String :=
  ["Blink", "Blink_L", "Blink_R",
   "BlinkLeft", "BlinkRight",
   "EyeBlinkLeft", "EyeBlinkRight",
   "eyeBlinkLeft", "eyeBlinkRight"]

/-- Clamp to `[0,1]`: Python `max(0.0, min(1.0, v))`. -/
def clamp01 (v : ℚ) : ℚ := max 0 (min 1 v)

/-- First stage of `_clamp_blendshapes`: the dict comprehension
`{k: max(0.0, min(1.0, v)) for k, v in bs.items()}`. -/
def clamp_stage (bs : BSMap) : BSMap := bs.map fun kv => (kv.1, clamp01 kv.2)

/-- Model of `expr_eye` inside `_clamp_blendshapes`:
`max(result.get(n, 0.0) for n in _EXPRESSIONS_AFFECTING_EYES)` where the
frozenset is `{"Joy", "Angry"}` (the generator is never empty, so the
`default=0.0` is inert; `max` over the two reads is order-insensitive). -/
def expr_eye (bs : BSMap) : ℚ :=
  max (getD (clamp_stage bs) "Joy" 0) (getD (clamp_stage bs) "Angry" 0)

/-- Model of `cap` inside `_clamp_blendshapes`: `max(0.0, 1.0 - expr_eye * 0.7)`. -/
def eye_cap (bs : BSMap) : ℚ := max 0 (1 - expr_eye bs * 0.7)

/-- Model of `_clamp_blendshapes`: clamp every value to `[0,1]`, then if
`expr_eye > 0.05` cap every present eye-blink entry at `eye_cap`.  The
Python in-place loop `for name in _EYE_BLINK_NAMES: if name in result:
result[name] = min(result[name], cap)` updates each (distinct) key
independently and keeps dict order, which is exactly the keyed map
below. -/
def clamp_blendshapes (bs : BSMap) : BSMap :=
  if expr_eye bs > 0.05 then
    (clamp_stage bs).map fun kv =>
      if kv.1 ∈ eye_blink_names then (kv.1, min kv.2 (eye_cap bs)) else kv
  else clamp_stage bs

/-- Bone value: Python `{"pos": [x, y, z], "rot": [x, y, z, w]}`.  Every
bone constructed anywhere in the module carries both keys, so the fields
are total; the defensive `data.get("rot", [0, 0, 0, 1])` reads in the
source only ever see present keys or a missing *bone*, the latter being
modelled at the map level (`rotD`). -/
structure Bone where
  pos : ℚ × ℚ × ℚ
  rot : Quat

/-- Bone map: Python `dict[str, dict]`. -/
abbrev BoneMap := List (String × Bone)

/-- Rotation read with identity default:
`m.get(name, {}).get("rot", [0, 0, 0, 1])`. -/
def rotD (m : BoneMap) (k : String) : Quat :=
  ((m.lookup k).map Bone.rot).getD quat_identity

/-- Animation frame.  `t` and `bones` model optional dict keys; a frame
produced by the merge has no `"t"` key, a frame recorded with no bones
seen has no `"bones"` key. -/
structure Frame where
  t : Option ℤ := none
  blendshapes : BSMap := []
  bones : Option BoneMap := none

/-- Timestamp read of a clip frame (clip frames always carry `"t"`; a
missing key would raise `KeyError` in Python). -/
def Frame.tD (f : Frame) : ℤ := f.t.getD 0

/-- Keys of a blendshape map. -/
def bs_keys (m : BSMap) : List String := m.map Prod.fst

/-- Keys of a bone map. -/
def bone_keys (m : BoneMap) : List String := m.map Prod.fst

/-- Key-set union `set(xs) | set(ys)` (iteration order of a Python set is
unspecified; all theorems depend only on membership). -/
def keys_union (xs ys : List String) : List String := (xs ++ ys).dedup

-- ── Frame helpers (`VMCPlayer._find_frame`) ──────────────────────────────

/-- Loop body of `_find_frame`: walk the frames, keeping the last frame
with `f["t"] <= target_ms`, stopping at the first larger timestamp. -/
def find_frame_go (best : Frame) (target_ms : ℚ) : List Frame → Frame
  | [] => best
  | f :: fs =>
      if (f.tD : ℚ) ≤ target_ms then find_frame_go f target_ms fs else best

/-- Model of `VMCPlayer._find_frame`: nearest frame at or before
`target_ms`.  `best` starts at `frames[0]`; the Python loop re-visits
`frames[0]` first, which is a no-op, so iterating over the tail is
equivalent.  On `[]` the Python raises `IndexError`; callers guarantee
non-emptiness and the `[]` case below is junk. -/
def find_frame (frames : List Frame) (target_ms : ℚ) : Frame :=
  match frames with
  | [] => {}
  | f0 :: rest => find_frame_go f0 target_ms rest

/-- Clip duration `frames[-1]["t"]` (callers guarantee non-emptiness; the
`[]` case is junk). -/
def clip_duration (frames : List Frame) : ℤ := ((frames.getLast?).getD {}).tD

-- ── Layer merging (`VMCPlayer._merge_layers`, `_merge_multiple_actions`) ─

/-- Blendshape part of `_merge_layers`: `clamp(idle + delta, 0, 1)` over
the key union, with missing values read as `0`. -/
def merge_bs (i_bs a_bs : BSMap) : BSMap :=
  (keys_union (bs_keys i_bs) (bs_keys a_bs)).map fun n =>
    (n, clamp01 (getD i_bs n 0 + getD a_bs n 0))

/-- Bone part of `_merge_layers`: rotation
`normalize(idle_rot * delta_rot)` over the key union with missing
rotations read as identity and positions zeroed. -/
noncomputable def merge_bones (i_bones a_bones : BoneMap) : BoneMap :=
  (keys_union (bone_keys i_bones) (bone_keys a_bones)).map fun n =>
    (n, ⟨(0, 0, 0), quat_normalize (quat_multiply (rotD i_bones n) (rotD a_bones n))⟩)

/-- Body of `_merge_layers` when both dicts are truthy; the `"bones"` key
is set only when either side has bones. -/
noncomputable def merge_frames (i a : Frame) : Frame :=
  if (i.bones.getD []).isEmpty && (a.bones.getD []).isEmpty then
    { blendshapes := merge_bs i.blendshapes a.blendshapes }
  else
    { blendshapes := merge_bs i.blendshapes a.blendshapes
      bones := some (merge_bones (i.bones.getD []) (a.bones.getD [])) }

/-- Model of `VMCPlayer._merge_layers` including the truthiness guards
`if not action: return idle` and `if not idle: return action` (`none`
models a falsy dict). -/
noncomputable def merge_layers (idle action : Option Frame) : Option Frame :=
  match action with
  | none => idle
  | some a =>
    match idle with
    | none => some a
    | some i => some (merge_frames i a)

/-- Model of `VMCPlayer._merge_multiple_actions`: if there are no action
frames return the idle; otherwise start from `dict(idle) if idle else {}`
and fold every action frame in list order through `_merge_layers`. -/
noncomputable def merge_multiple_actions
    (idle : Option Frame) (action_frames : List Frame) : Option Frame :=
  if action_frames.isEmpty then idle
  else action_frames.foldl (fun acc f => merge_layers acc (some f)) idle

-- ── Relative frame conversion (`convert_to_relative`) ────────────────────

/-- Blendshape deltas of one `convert_to_relative` output frame:
`frame.get(name, 0) - ref.get(name, 0)` over the key union. -/
def rel_bs (ref_bs f_bs : BSMap) : BSMap :=
  (keys_union (bs_keys f_bs) (bs_keys ref_bs)).map fun n =>
    (n, getD f_bs n 0 - getD ref_bs n 0)

/-- Bone deltas of one `convert_to_relative` output frame: rotation
`normalize(inverse(ref_rot) * frame_rot)` over the key union with
missing rotations read as identity and positions zeroed. -/
noncomputable def rel_bones (ref_bones f_bones : BoneMap) : BoneMap :=
  (keys_union (bone_keys f_bones) (bone_keys ref_bones)).map fun n =>
    (n, ⟨(0, 0, 0),
         quat_normalize (quat_multiply (quat_inverse (rotD ref_bones n))
           (rotD f_bones n))⟩)

/-- One output frame of `convert_to_relative`; the `"bones"` key is set
only when either side has bones. -/
noncomputable def rel_frame (ref f : Frame) : Frame :=
  if (f.bones.getD []).isEmpty && (ref.bones.getD []).isEmpty then
    { t := f.t, blendshapes := rel_bs ref.blendshapes f.blendshapes }
  else
    { t := f.t
      blendshapes := rel_bs ref.blendshapes f.blendshapes
      bones := some (rel_bones (ref.bones.getD []) (f.bones.getD [])) }

/-- Model of `convert_to_relative`: empty input returned unchanged,
otherwise every frame becomes its delta from `frames[0]`. -/
noncomputable def convert_to_relative (frames : List Frame) : List Frame :=
  match frames with
  | [] => []
  | ref :: _ => frames.map (rel_frame ref)

-- ── Sender wire messages (`VMCSender.send_frame`, `apply_rest_pose`) ─────

/-- Outbound OSC message. -/
inductive Msg where
  | blendVal (name : String) (value : ℚ)
  | blendApply
  | bonePos (name : String) (px py pz : ℚ) (rot : Quat)

/-- Python `dict.update`: existing keys are overwritten in place (base
order kept), new keys are appended in overlay order. -/
def dict_update (base overlay : BoneMap) : BoneMap :=
  (base.map fun kv =>
    match overlay.lookup kv.1 with
    | some v => (kv.1, v)
    | none => kv)
  ++ overlay.filter fun kv => !(base.map Prod.fst).contains kv.1

/-- Model of `VMCSender.send_frame`: emit clamped blendshape `Val`
messages then one `Apply`, then one bone message per entry of the rest
pose overlaid (when `include_bones`) with the frame's bones, skipping
`Hips`, with positions forced to zero. -/
def send_frame (rest_pose : BoneMap) (frame : Frame) (include_bones : Bool) :
    List Msg :=
  let bs := clamp_blendshapes frame.blendshapes
  let merged_bones :=
    if include_bones then dict_update rest_pose (frame.bones.getD []) else rest_pose
  (bs.map fun kv => Msg.blendVal kv.1 kv.2) ++ [Msg.blendApply] ++
    ((merged_bones.filter fun kv => kv.1 ≠ "Hips").map fun kv =>
      Msg.bonePos kv.1 0 0 0 kv.2.rot)

/-- Model of `apply_rest_pose`: one bone message per rest-pose entry,
skipping `Hips`, with positions zeroed. -/
def apply_rest_pose (rest_pose : BoneMap) : List Msg :=
  (rest_pose.filter fun kv => kv.1 ≠ "Hips").map fun kv =>
    Msg.bonePos kv.1 0 0 0 kv.2.rot

-- ── Recorder (`VMCRecorder`) ─────────────────────────────────────────────

/-- Python `int()` on a float: truncation toward zero. -/
def pyInt (x : ℚ) : ℤ := if 0 ≤ x then ⌊x⌋ else ⌈x⌉

/-- Model of `self._sample_interval = 1.0 / 30`. -/
def sample_interval : ℚ := 1 / 30

/-- Mutable state of `VMCRecorder` (times are `perf_counter` seconds). -/
structure RecorderState where
  recording : Bool
  startTime : ℚ
  lastSampleTime : ℚ
  frames : List Frame
  currentBlendshapes : BSMap
  currentBones : BoneMap

/-- Dict single-key write `m[k] = v`: overwrite in place if present,
append otherwise. -/
def dict_set (m : BSMap) (k : String) (v : ℚ) : BSMap :=
  if (m.map Prod.fst).contains k then
    m.map fun kv => if kv.1 = k then (k, v) else kv
  else m ++ [(k, v)]

/-- Model of `VMCRecorder._on_blendshape` (well-formed message). -/
def on_blendshape (name : String) (value : ℚ) (s : RecorderState) : RecorderState :=
  { s with currentBlendshapes := dict_set s.currentBlendshapes name value }

/-- Bone-map single-key write. -/
def bone_set (m : BoneMap) (k : String) (b : Bone) : BoneMap :=
  if (m.map Prod.fst).contains k then
    m.map fun kv => if kv.1 = k then (k, b) else kv
  else m ++ [(k, b)]

/-- Model of `VMCRecorder._on_bone` (well-formed message). -/
def on_bone (name : String) (b : Bone) (s : RecorderState) : RecorderState :=
  { s with currentBones := bone_set s.currentBones name b }

/-- Model of `VMCRecorder._on_blendshape_apply` at wall-clock `now`:
ignore when not recording or when within the 1/30 s rate cap; otherwise
append a frame at `t = int((now - start_time) * 1000)` snapshotting the
current maps (the `"bones"` key present exactly when `current_bones` is
non-empty) and update `last_sample_time`. -/
def on_blendshape_apply (now : ℚ) (s : RecorderState) : RecorderState :=
  if !s.recording then s
  else if now - s.lastSampleTime < sample_interval then s
  else
    let f : Frame :=
      { t := some (pyInt ((now - s.startTime) * 1000))
        blendshapes := s.currentBlendshapes
        bones := if s.currentBones.isEmpty then none else some s.currentBones }
    { s with frames := s.frames ++ [f], lastSampleTime := now }

-- ── Player (`VMCPlayer`) ─────────────────────────────────────────────────

/-- One entry of `self._active_actions`:
`{"frames": ..., "loop": ..., "start_time": ...}`. -/
structure ActionState where
  frames : List Frame
  loop : Bool
  startTime : ℚ

/-- Mutable state of `VMCPlayer` guarded by its lock.  The dirty-name
sets are Python `set`s; they are modelled as deduplicated lists and only
membership / emptiness is ever relied upon. -/
structure PlayerState where
  idleFrames : List Frame
  idleActive : Bool
  activeActions : List ActionState
  dirtyBlendshapes : List String
  dirtyBones : List String

/-- Blendshape names mentioned anywhere in a clip. -/
def clip_bs_names (frames : List Frame) : List String :=
  (frames.map fun f => bs_keys f.blendshapes).flatten

/-- Bone names mentioned anywhere in a clip. -/
def clip_bone_names (frames : List Frame) : List String :=
  (frames.map fun f => bone_keys (f.bones.getD [])).flatten

/-- Model of `VMCPlayer.play_action` at wall-clock `now`: append the new
action and add every blendshape/bone name of the clip to the dirty
sets. -/
def play_action (frames : List Frame) (loop : Bool) (now : ℚ) (s : PlayerState) :
    PlayerState :=
  { s with
      activeActions := s.activeActions ++ [⟨frames, loop, now⟩]
      dirtyBlendshapes := (s.dirtyBlendshapes ++ clip_bs_names frames).dedup
      dirtyBones := (s.dirtyBones ++ clip_bone_names frames).dedup }

/-- Model of `VMCPlayer._get_active_action_frames` at wall-clock `now`:
returns the surviving action list (expired non-looping actions removed,
looping actions restarted with `start_time = now`) together with the
sampled frame of each contributing action, in list order.  An action with
an empty frame list is kept and contributes nothing.  The restart writes
`time.perf_counter()` a second time; both reads are modelled as the same
`now`. -/
def process_actions (now : ℚ) : List ActionState → List ActionState × List Frame
  | [] => ([], [])
  | a :: rest =>
    let r := process_actions now rest
    if a.frames.isEmpty then (a :: r.1, r.2)
    else
      let elapsed_ms := (now - a.startTime) * 1000
      let duration_ms : ℚ := (clip_duration a.frames : ℚ)
      if elapsed_ms ≥ duration_ms then
        if a.loop then
          ({ a with startTime := now } :: r.1, find_frame a.frames 0 :: r.2)
        else (r.1, r.2)
      else (a :: r.1, find_frame a.frames elapsed_ms :: r.2)

/-- Model of `VMCPlayer._blend_frames`: componentwise lerp of blendshapes
over the key union; hemisphere-corrected nlerp of bone rotations over the
key union with positions zeroed (the `"bones"` key set only when either
side has bones). -/
noncomputable def blend_frames (a b : Frame) (t : ℚ) : Frame :=
  let a_bs := a.blendshapes
  let b_bs := b.blendshapes
  let bs := (keys_union (bs_keys a_bs) (bs_keys b_bs)).map fun n =>
    (n, getD a_bs n 0 + (getD b_bs n 0 - getD a_bs n 0) * t)
  let a_bones := a.bones.getD []
  let b_bones := b.bones.getD []
  if a_bones.isEmpty && b_bones.isEmpty then
    { blendshapes := bs }
  else
    { blendshapes := bs
      bones := some ((keys_union (bone_keys a_bones) (bone_keys b_bones)).map fun n =>
        (n,
         let ar := rotD a_bones n
         let br0 := rotD b_bones n
         let br : Quat :=
           if ar.x * br0.x + ar.y * br0.y + ar.z * br0.z + ar.w * br0.w < 0 then
             ⟨-br0.x, -br0.y, -br0.z, -br0.w⟩
           else br0
         ⟨(0, 0, 0),
          quat_normalize ⟨ar.x + (br.x - ar.x) * (t : ℝ),
                          ar.y + (br.y - ar.y) * (t : ℝ),
                          ar.z + (br.z - ar.z) * (t : ℝ),
                          ar.w + (br.w - ar.w) * (t : ℝ)⟩⟩)) }

/-- Python float `%` with positive divisor: floored modulus in `[0, d)`. -/
def qmod (x d : ℚ) : ℚ := x - d * ⌊x / d⌋

/-- Model of `VMCPlayer.CROSSFADE_MS`. -/
def CROSSFADE_MS : ℚ := 500

/-- Model of `VMCPlayer._get_idle_frame` at `elapsed_s` seconds since the
idle epoch: `none` for an empty clip; the first frame unchanged for a
non-positive duration; otherwise the nearest frame at or before the
wrapped elapsed time, crossfaded toward `frames[0]` near the loop
boundary. -/
noncomputable def get_idle_frame (frames : List Frame) (elapsed_s : ℚ) :
    Option Frame :=
  if frames.isEmpty then none
  else
    let duration_ms : ℚ := (clip_duration frames : ℚ)
    if duration_ms ≤ 0 then some (frames.headD {})
    else
      let elapsed_ms := qmod (elapsed_s * 1000) duration_ms
      let current := find_frame frames elapsed_ms
      let cf_ms := min CROSSFADE_MS (duration_ms * 0.3)
      if cf_ms > 0 ∧ elapsed_ms > duration_ms - cf_ms then
        some (blend_frames current (frames.headD {})
          ((elapsed_ms - (duration_ms - cf_ms)) / cf_ms))
      else some current

/-- Model of `VMCPlayer._send_reset`: collect the dirty blendshape names
together with every blendshape name of residual actions and of the idle
clip; when non-empty, send a frame mapping them all to `0.0` with
`include_bones=False`; clear both dirty sets. -/
def send_reset (rest_pose : BoneMap) (s : PlayerState) : PlayerState × List Msg :=
  let names := (s.dirtyBlendshapes
    ++ (s.activeActions.map fun a => clip_bs_names a.frames).flatten
    ++ clip_bs_names s.idleFrames).dedup
  let msgs :=
    if names.isEmpty then []
    else send_frame rest_pose { blendshapes := names.map fun n => (n, (0 : ℚ)) } false
  ({ s with dirtyBlendshapes := [], dirtyBones := [] }, msgs)

/-- One iteration of `VMCPlayer._render_loop` at wall-clock `now` with
idle epoch `idle_epoch`: returns the updated state, the emitted messages
and whether the loop exited.  The exit branch models the `break` followed
by `_send_reset()`; the normal branch samples both layers, merges,
performs the dirty-name cleanup, clears the dirty sets once idle and all
actions are gone, and sends the merged frame (when one exists) with
`include_bones = bool(merged.get("bones"))`. -/
noncomputable def render_step (now idle_epoch : ℚ) (rest_pose : BoneMap)
    (s : PlayerState) : PlayerState × List Msg × Bool :=
  if !s.idleActive && s.activeActions.isEmpty then
    let r := send_reset rest_pose s
    (r.1, r.2, true)
  else
    let idle_frame :=
      if s.idleActive && !s.idleFrames.isEmpty then
        get_idle_frame s.idleFrames (now - idle_epoch)
      else none
    let pr := process_actions now s.activeActions
    let merged := merge_multiple_actions idle_frame pr.2
    match merged with
    | none => ({ s with activeActions := pr.1 }, [], false)
    | some m =>
      let bs := m.blendshapes ++
        (s.dirtyBlendshapes.filter fun n => !(bs_keys m.blendshapes).contains n).map
          fun n => (n, (0 : ℚ))
      let bones :=
        if s.dirtyBones.isEmpty then m.bones
        else
          let base := m.bones.getD []
          some (base ++
            (s.dirtyBones.filter fun n =>
              !(bone_keys base).contains n && n ≠ "Hips").map
              fun n => (n, (⟨(0, 0, 0), quat_identity⟩ : Bone)))
      let quiesced := !s.idleActive && pr.1.isEmpty
      let m' : Frame := { t := m.t, blendshapes := bs, bones := bones }
      let has_bones := !(m'.bones.getD []).isEmpty
      ({ s with
          activeActions := pr.1
          dirtyBlendshapes := if quiesced then [] else s.dirtyBlendshapes
          dirtyBones := if quiesced then [] else s.dirtyBones },
       send_frame rest_pose m' has_bones, false)

-- ── Preset store (`load_preset`, `delete_preset`) ────────────────────────

/-- On-disk preset document written by `save_preset`. -/
structure Preset where
  pname : String
  mode : String
  durationMs : ℤ
  frameCount : ℕ
  frames : List Frame

/-- The presets directory as a map from preset name to parsed file. -/
abbrev PresetDir := List (String × Preset)

/-- Model of `load_preset`: error exactly when `<name>.json` is absent. -/
def load_preset (dir : PresetDir) (name : String) : Except String Preset :=
  match dir.lookup name with
  | none => .error ("Preset not found: " ++ name)
  | some p => .ok p

/-- Model of `delete_preset`: remove the file and return `true` when it
exists, otherwise return `false`; no exception is raised either way. -/
def delete_preset (dir : PresetDir) (name : String) : PresetDir × Bool :=
  if (dir.map Prod.fst).contains name then
    (dir.filter fun kv => kv.1 ≠ name, true)
  else (dir, false)

-- ── Message predicates and concrete inputs used by witnesses ─────────────

/-- Does a wire message address the `Hips` bone? -/
def msg_is_hips : Msg → Bool
  | .bonePos nm _ _ _ _ => nm == "Hips"
  | _ => false

/-- Does a wire message address the named bone? -/
def msg_is_bone_named (n : String) : Msg → Bool
  | .bonePos nm _ _ _ _ => nm == n
  | _ => false

/-- Concrete idle frame (claim 1 witness). -/
def iW1 : Frame :=
  { blendshapes := [("Joy", 1/2)]
    bones := some [("Head", ⟨(0, 0, 0), quat_identity⟩)] }

/-- Concrete action delta frame (claim 1 witness). -/
def aW1 : Frame :=
  { t := some 0
    blendshapes := [("Joy", 3/10)]
    bones := some [("Head", ⟨(0, 0, 0), quat_identity⟩)] }

/-- Concrete blendshape map (claim 2 witness). -/
def bsW2 : BSMap := [("Joy", 1), ("EyeBlinkLeft", 1)]

/-- Concrete non-looping action clip with a bone (claim 3 counterexample). -/
def clipC3 : List Frame :=
  [{ t := some 0, blendshapes := [("Sorrow", 1/2)]
     bones := some [("Head", ⟨(0, 0, 0), quat_identity⟩)] },
   { t := some 100, blendshapes := [("Sorrow", 1)]
     bones := some [("Head", ⟨(0, 0, 0), quat_identity⟩)] }]

/-- Concrete rest pose (claim 3 counterexample). -/
def restC3 : BoneMap := [("Chest", ⟨(0, 0, 0), quat_identity⟩)]

/-- Player state right after `play_action(clipC3, loop=False)` at time 0
on a fresh player with no idle (dirty sets as `play_action` leaves
them). -/
def sC3 : PlayerState :=
  { idleFrames := []
    idleActive := false
    activeActions := [⟨clipC3, false, 0⟩]
    dirtyBlendshapes := (clip_bs_names clipC3).dedup
    dirtyBones := (clip_bone_names clipC3).dedup }

/-- Concrete bone-free clip (claim 3 witness). -/
def clipW3 : List Frame := [{ t := some 0, blendshapes := [("Joy", 1)] }]

/-- Player state right after `play_action(clipW3, loop=False)` at time 0
on a fresh player with no idle (claim 3 witness). -/
def sW3 : PlayerState :=
  { idleFrames := []
    idleActive := false
    activeActions := [⟨clipW3, false, 0⟩]
    dirtyBlendshapes := (clip_bs_names clipW3).dedup
    dirtyBones := (clip_bone_names clipW3).dedup }

/-- Concrete recorder state during recording (claim 4). -/
def recC4 : RecorderState :=
  { recording := true, startTime := 100, lastSampleTime := 0
    frames := [], currentBlendshapes := [("Joy", 1)], currentBones := [] }

/-- Wall-clock instant 1.7 ms after `recC4.startTime` (claim 4
counterexample: truncation and rounding of 1.7 differ). -/
def nowC4 : ℚ := 100 + 17/10000

/-- Wall-clock instant 1 s after `recC4.startTime` (claim 4 witness). -/
def nowW4 : ℚ := 101

/-- Concrete absolute frame (claim 5 witness). -/
def f0W5 : Frame :=
  { t := some 5
    blendshapes := [("Joy", 1/4)]
    bones := some [("Head", ⟨(0, 0, 0), ⟨0, 0, 0, 1⟩⟩)] }

/-- The bone of `rel_frame f0W5 f0W5` at `"Head"` (claim 5 witness). -/
noncomputable def bW5 : Bone :=
  ⟨(0, 0, 0),
   quat_normalize (quat_multiply (quat_inverse (rotD (f0W5.bones.getD []) "Head"))
     (rotD (f0W5.bones.getD []) "Head"))⟩

/-- Concrete expired non-looping action (claim 7 witness). -/
def aW7 : ActionState := ⟨[{ t := some 0, blendshapes := [("Joy", 1)] }], false, 0⟩

/-- Single-frame clip at `t = 100` (claim 7 counterexample: its duration
is 100, not zero). -/
def clipC7 : List Frame := [{ t := some 100 }]

/-- Concrete action frame with an out-of-range blendshape delta (claim 8
counterexample). -/
def aC8 : Frame := { t := some 0, blendshapes := [("X", -(1/2))] }

/-- Concrete presets directory (claim 9 witness). -/
def dirW9 : PresetDir := [("wave", ⟨"wave", "relative", 0, 1, []⟩)]

-- ── Association-list lemmas ──────────────────────────────────────────────

theorem lookup_keyed_of_mem {α : Type} (g : String → α) (n : String) :
    ∀ (names : List String), n ∈ names →
      (names.map fun k => (k, g k)).lookup n = some (g n) := by
  intro names
  induction names with
  | nil => intro h; simp at h
  | cons k rest ih =>
    intro h
    by_cases hk : n = k
    · subst hk; simp [List.lookup]
    · have hbk : (n == k) = false := by simp [hk]
      have hr : n ∈ rest := by
        rcases List.mem_cons.mp h with h1 | h1
        · exact absurd h1 hk
        · exact h1
      simp [List.lookup, hbk]
      exact ih hr

theorem lookup_keyed_val {α : Type} (g : String → α) (n : String) (v : α) :
    ∀ (names : List String),
      (names.map fun k => (k, g k)).lookup n = some v → v = g n := by
  intro names
  induction names with
  | nil => intro h; simp [List.lookup] at h
  | cons k rest ih =>
    by_cases hk : n = k
    · subst hk
      intro h
      simp [List.lookup] at h
      exact h.symm
    · have hbk : (n == k) = false := by simp [hk]
      intro h
      refine ih ?_
      simpa [List.lookup, hbk] using h

theorem lookup_entrywise {α β : Type} (f : String → α → β) :
    ∀ (m : List (String × α)) (n : String),
      (m.map fun kv => (kv.1, f kv.1 kv.2)).lookup n = (m.lookup n).map (f n) := by
  intro m
  induction m with
  | nil => simp
  | cons kv rest ih =>
    intro n
    obtain ⟨k, v⟩ := kv
    by_cases hk : n = k
    · subst hk; simp [List.lookup]
    · have hbk : (n == k) = false := by simp [hk]
      simp [List.lookup, hbk, ih n]

theorem not_mem_keys_of_lookup_none {α : Type} (n : String) :
    ∀ (m : List (String × α)), m.lookup n = none → n ∉ m.map Prod.fst := by
  intro m
  induction m with
  | nil => intro _ h; simp at h
  | cons kv rest ih =>
    obtain ⟨k, v⟩ := kv
    intro h hmem
    by_cases hk : n = k
    · subst hk; simp [List.lookup] at h
    · have hbk : (n == k) = false := by simp [hk]
      simp only [List.lookup, hbk] at h
      simp only [List.map_cons] at hmem
      rcases List.mem_cons.mp hmem with h1 | h1
      · exact hk h1
      · exact ih h h1

-- ── Clamp lemmas ─────────────────────────────────────────────────────────

theorem clamp01_nonneg (v : ℚ) : 0 ≤ clamp01 v := le_max_left _ _

theorem clamp01_le_one (v : ℚ) : clamp01 v ≤ 1 :=
  max_le (by norm_num) (min_le_left _ _)

theorem clamp01_zero : clamp01 0 = 0 := by norm_num [clamp01]

theorem eye_cap_nonneg (bs : BSMap) : 0 ≤ eye_cap bs := le_max_left _ _

/-- Claim C10: sanitization never adds or removes a blendshape name — the
output of `_clamp_blendshapes` has exactly the input's key sequence. -/
theorem claim10 (bs : BSMap) : bs_keys (clamp_blendshapes bs) = bs_keys bs := by
  unfold clamp_blendshapes
  split
  · unfold bs_keys clamp_stage
    simp only [List.map_map]
    refine List.map_congr_left ?_
    intro kv _
    by_cases h : kv.1 ∈ eye_blink_names <;> simp [h]
  · unfold bs_keys clamp_stage
    simp [List.map_map]

/-- Claim C2: the sanitizer `_clamp_blendshapes` returns values in
`[0,1]`; and when the clamped `max(Joy, Angry)` exceeds `0.05`, every
present eye-blink name is capped at `min(clamped value, max(0, 1 -
0.7*E))` while every other entry keeps its clamped value. -/
theorem claim2 (bs : BSMap) :
    (∀ p ∈ clamp_blendshapes bs, 0 ≤ p.2 ∧ p.2 ≤ 1) ∧
    (expr_eye bs > 0.05 → ∀ n v, bs.lookup n = some v →
      (clamp_blendshapes bs).lookup n =
        some (if n ∈ eye_blink_names then min (clamp01 v) (eye_cap bs)
              else clamp01 v)) := by
  constructor
  · intro p hp
    unfold clamp_blendshapes at hp
    split at hp
    · rcases List.mem_map.mp hp with ⟨kv, hkv, hps⟩
      rcases List.mem_map.mp hkv with ⟨kv0, _, hkv0⟩
      by_cases he : kv.1 ∈ eye_blink_names
      · subst hps
        simp only [he, if_pos] at *
        refine ⟨le_min ?_ (eye_cap_nonneg bs), le_trans (min_le_left _ _) ?_⟩
        · subst hkv0; exact clamp01_nonneg _
        · subst hkv0; exact clamp01_le_one _
      · subst hps
        simp only [he, if_neg, not_false_iff] at *
        subst hkv0
        exact ⟨clamp01_nonneg _, clamp01_le_one _⟩
    · rcases List.mem_map.mp hp with ⟨kv0, _, hkv0⟩
      subst hkv0
      exact ⟨clamp01_nonneg _, clamp01_le_one _⟩
  · intro hE n v hv
    unfold clamp_blendshapes
    rw [if_pos hE]
    have hfun : (fun kv : String × ℚ =>
        if kv.1 ∈ eye_blink_names then (kv.1, min kv.2 (eye_cap bs)) else kv) =
        fun kv : String × ℚ =>
          (kv.1, if kv.1 ∈ eye_blink_names then min kv.2 (eye_cap bs) else kv.2) := by
      funext kv
      by_cases h : kv.1 ∈ eye_blink_names <;> simp [h]
    rw [hfun,
      lookup_entrywise (fun k w => if k ∈ eye_blink_names then min w (eye_cap bs) else w)]
    have hstage : (clamp_stage bs).lookup n = (bs.lookup n).map clamp01 := by
      unfold clamp_stage
      exact lookup_entrywise (fun _ w => clamp01 w) bs n
    rw [hstage, hv]
    by_cases h : n ∈ eye_blink_names <;> simp [h]

/-- Claim C2 witness: on `{"Joy": 1, "EyeBlinkLeft": 1}` the eye-conflict
branch is taken and the blink entry is capped. -/
theorem claim2_witness :
    expr_eye bsW2 > 0.05 ∧
    (clamp_blendshapes bsW2).lookup "EyeBlinkLeft" =
      some (if "EyeBlinkLeft" ∈ eye_blink_names then min (clamp01 1) (eye_cap bsW2)
            else clamp01 1) := by
  have hE : expr_eye bsW2 > 0.05 := by
    norm_num [expr_eye, clamp_stage, bsW2, getD, List.lookup, clamp01]
  exact ⟨hE, (claim2 bsW2).2 hE "EyeBlinkLeft" 1 rfl⟩

theorem bones_not_both_empty {x y : BoneMap} {n : String}
    (h : n ∈ keys_union (bone_keys x) (bone_keys y)) :
    (x.isEmpty && y.isEmpty) = false := by
  cases x with
  | cons _ _ => simp
  | nil =>
    cases y with
    | cons _ _ => simp
    | nil => simp [keys_union, bone_keys] at h

/-- Claim C1: merging a (present, non-empty) idle frame with an action
delta frame assigns `clamp(idle + delta, 0, 1)` to every blendshape name
in the key union (missing values read as `0`), assigns rotation
`normalize(idle_rot * delta_rot)` (Hamilton right-multiplication, missing
rotations read as identity) and position `[0,0,0]` to every bone name in
the key union, and folding several action frames applies this rule in
insertion order. -/
theorem claim1 (i a : Frame) :
    (∀ n ∈ keys_union (bs_keys i.blendshapes) (bs_keys a.blendshapes),
      (merge_frames i a).blendshapes.lookup n =
        some (clamp01 (getD i.blendshapes n 0 + getD a.blendshapes n 0))) ∧
    (∀ n ∈ keys_union (bone_keys (i.bones.getD [])) (bone_keys (a.bones.getD [])),
      ((merge_frames i a).bones.getD []).lookup n =
        some ⟨(0, 0, 0), quat_normalize (quat_multiply (rotD (i.bones.getD []) n)
          (rotD (a.bones.getD []) n))⟩) ∧
    merge_layers (some i) (some a) = some (merge_frames i a) ∧
    (∀ (idle : Option Frame) (f : Frame) (fs : List Frame),
      merge_multiple_actions idle (f :: fs) =
        merge_multiple_actions (merge_layers idle (some f)) fs) := by
  refine ⟨?_, ?_, rfl, ?_⟩
  · have hbs : (merge_frames i a).blendshapes = merge_bs i.blendshapes a.blendshapes := by
      unfold merge_frames
      split <;> rfl
    intro n hn
    rw [hbs]
    exact lookup_keyed_of_mem _ n _ hn
  · intro n hn
    have hcond := bones_not_both_empty hn
    have hbones : (merge_frames i a).bones =
        some (merge_bones (i.bones.getD []) (a.bones.getD [])) := by
      unfold merge_frames
      rw [if_neg (by simp [hcond])]
    rw [hbones]
    exact lookup_keyed_of_mem _ n _ hn
  · intro idle f fs
    cases fs with
    | nil => simp [merge_multiple_actions]
    | cons g gs => simp [merge_multiple_actions]

/-- Claim C1 witness: the merge rule evaluated at a concrete idle frame
and action delta frame sharing the blendshape `Joy` and the bone
`Head`. -/
theorem claim1_witness :
    ("Joy" ∈ keys_union (bs_keys iW1.blendshapes) (bs_keys aW1.blendshapes)) ∧
    (merge_frames iW1 aW1).blendshapes.lookup "Joy" =
      some (clamp01 (getD iW1.blendshapes "Joy" 0 + getD aW1.blendshapes "Joy" 0)) ∧
    ("Head" ∈ keys_union (bone_keys (iW1.bones.getD []))
      (bone_keys (aW1.bones.getD []))) ∧
    ((merge_frames iW1 aW1).bones.getD []).lookup "Head" =
      some ⟨(0, 0, 0), quat_normalize (quat_multiply (rotD (iW1.bones.getD []) "Head")
        (rotD (aW1.bones.getD []) "Head"))⟩ := by
  have h1 : "Joy" ∈ keys_union (bs_keys iW1.blendshapes) (bs_keys aW1.blendshapes) := by
    simp [iW1, aW1, keys_union, bs_keys]
  have h2 : "Head" ∈ keys_union (bone_keys (iW1.bones.getD []))
      (bone_keys (aW1.bones.getD [])) := by
    simp [iW1, aW1, keys_union, bone_keys]
  exact ⟨h1, (claim1 iW1 aW1).1 "Joy" h1, h2, (claim1 iW1 aW1).2.1 "Head" h2⟩

/-- Claim C8 counterexample: with no idle, a single action frame passes
through `_merge_multiple_actions` unchanged, so an out-of-range
blendshape value is *not* clamped, contradicting the claim that the merge
still clamps. -/
theorem claim8_counterexample :
    merge_multiple_actions none [aC8] = some aC8 ∧
    aC8.blendshapes.lookup "X" = some (-(1/2)) ∧
    clamp01 (-(1/2)) ≠ -(1/2) := by
  refine ⟨rfl, rfl, ?_⟩
  norm_num [clamp01]

/-- Claim C8 (amended): with no idle, the first action frame is returned
as-is (no clamping, normalizing, or position zeroing); each subsequent
action frame folds in through `_merge_layers`, whose body does clamp,
normalize and zero positions. -/
theorem claim8 (a : Frame) (fs : List Frame) :
    merge_multiple_actions none [a] = some a ∧
    (merge_multiple_actions none (a :: fs) = merge_multiple_actions (some a) fs) ∧
    (∀ b : Frame, merge_layers (some a) (some b) = some (merge_frames a b)) := by
  refine ⟨rfl, ?_, fun _ => rfl⟩
  cases fs with
  | nil => simp [merge_multiple_actions, merge_layers]
  | cons g gs => simp [merge_multiple_actions, merge_layers]

/-- Claim C9 counterexample: for an absent preset name, `load_preset`
errors but `delete_preset` returns normally with `False` (its return type
has no error channel at all), contradicting the claim that both raise a
preset-not-found error. -/
theorem claim9_counterexample :
    load_preset [] "ghost" = Except.error ("Preset not found: " ++ "ghost") ∧
    delete_preset ([] : PresetDir) "ghost" = ([], false) := by
  exact ⟨rfl, rfl⟩

/-- Claim C9 (amended): for every preset name whose file is absent,
`load_preset` raises the "Preset not found" error, while `delete_preset`
raises nothing: it removes nothing and returns `False`. -/
theorem claim9 (dir : PresetDir) (name : String) (h : dir.lookup name = none) :
    load_preset dir name = Except.error ("Preset not found: " ++ name) ∧
    delete_preset dir name = (dir, false) := by
  constructor
  · unfold load_preset
    rw [h]
  · unfold delete_preset
    have hmem := not_mem_keys_of_lookup_none name dir h
    rw [if_neg (by simpa using hmem)]

/-- Claim C9 witness: a directory holding only `wave.json` and the absent
name `ghost`. -/
theorem claim9_witness :
    (dirW9.lookup "ghost" = none) ∧
    load_preset dirW9 "ghost" = Except.error ("Preset not found: " ++ "ghost") ∧
    delete_preset dirW9 "ghost" = (dirW9, false) := by
  exact ⟨rfl, (claim9 dirW9 "ghost" rfl).1, (claim9 dirW9 "ghost" rfl).2⟩

theorem on_apply_skip (now : ℚ) (s : RecorderState) (hrec : s.recording = true)
    (h : now - s.lastSampleTime < sample_interval) :
    on_blendshape_apply now s = s := by
  unfold on_blendshape_apply
  rw [hrec]
  simp [h]

theorem on_apply_commit (now : ℚ) (s : RecorderState) (hrec : s.recording = true)
    (h : ¬ now - s.lastSampleTime < sample_interval) :
    on_blendshape_apply now s =
      { s with
          frames := s.frames ++
            [{ t := some (pyInt ((now - s.startTime) * 1000))
               blendshapes := s.currentBlendshapes
               bones := if s.currentBones.isEmpty then none
                        else some s.currentBones }]
          lastSampleTime := now } := by
  unfold on_blendshape_apply
  rw [hrec]
  simp [h]

/-- Claim C4 counterexample: with recording active and 1.7 ms elapsed
since `start_time` (rate cap satisfied), the committed frame's timestamp
is `int(1.7) = 1`, not `round(1.7) = 2`. -/
theorem claim4_counterexample :
    (on_blendshape_apply nowC4 recC4).frames.map Frame.t ≠
      [some (round ((nowC4 - recC4.startTime) * 1000))] := by
  have hlt : ¬ nowC4 - recC4.lastSampleTime < sample_interval := by
    norm_num [nowC4, recC4, sample_interval]
  rw [on_apply_commit nowC4 recC4 rfl hlt]
  have helapsed : (nowC4 - 100 : ℚ) * 1000 = 17/10 := by norm_num [nowC4]
  have hpy : pyInt ((nowC4 - 100) * 1000) = 1 := by
    rw [helapsed]
    norm_num [pyInt]
  have hround : round ((nowC4 - 100 : ℚ) * 1000) = 2 := by
    rw [helapsed]
    norm_num [round_eq]
  simp [recC4, hpy, hround]

/-- Claim C4 (amended): while recording, a `Blend/Apply` within
`1/30 s` of the last accepted sample is ignored outright; otherwise a
frame is appended whose `t` is the *truncation* `int((now -
start_time) * 1000)` (equal to the floor for a non-negative elapsed
time), whose blendshapes snapshot the current map, which carries a
`bones` field exactly when the current bone map is non-empty, and
`last_sample_time` becomes `now`. -/
theorem claim4 (now : ℚ) (s : RecorderState) (hrec : s.recording = true) :
    (now - s.lastSampleTime < sample_interval → on_blendshape_apply now s = s) ∧
    (¬ now - s.lastSampleTime < sample_interval →
      on_blendshape_apply now s =
        { s with
            frames := s.frames ++
              [{ t := some (pyInt ((now - s.startTime) * 1000))
                 blendshapes := s.currentBlendshapes
                 bones := if s.currentBones.isEmpty then none
                          else some s.currentBones }]
            lastSampleTime := now }) ∧
    (0 ≤ now - s.startTime →
      pyInt ((now - s.startTime) * 1000) = ⌊(now - s.startTime) * 1000⌋) := by
  refine ⟨on_apply_skip now s hrec, on_apply_commit now s hrec, ?_⟩
  intro h0
  unfold pyInt
  rw [if_pos (mul_nonneg h0 (by norm_num))]

/-- Claim C4 witness: one second after the recording started (rate cap
satisfied) a frame is committed at the truncated elapsed time. -/
theorem claim4_witness :
    (¬ nowW4 - recC4.lastSampleTime < sample_interval) ∧
    on_blendshape_apply nowW4 recC4 =
      { recC4 with
          frames := recC4.frames ++
            [{ t := some (pyInt ((nowW4 - recC4.startTime) * 1000))
               blendshapes := recC4.currentBlendshapes
               bones := if recC4.currentBones.isEmpty then none
                        else some recC4.currentBones }]
          lastSampleTime := nowW4 } ∧
    (0 ≤ nowW4 - recC4.startTime ∧
      pyInt ((nowW4 - recC4.startTime) * 1000) = ⌊(nowW4 - recC4.startTime) * 1000⌋) := by
  have hlt : ¬ nowW4 - recC4.lastSampleTime < sample_interval := by
    norm_num [nowW4, recC4, sample_interval]
  have h0 : (0 : ℚ) ≤ nowW4 - recC4.startTime := by norm_num [nowW4, recC4]
  exact ⟨hlt, (claim4 nowW4 recC4 rfl).2.1 hlt, h0, (claim4 nowW4 recC4 rfl).2.2 h0⟩

theorem process_actions_append (now : ℚ) (xs ys : List ActionState) :
    process_actions now (xs ++ ys) =
      ((process_actions now xs).1 ++ (process_actions now ys).1,
       (process_actions now xs).2 ++ (process_actions now ys).2) := by
  induction xs with
  | nil => simp [process_actions]
  | cons a rest ih =>
    simp only [List.cons_append, process_actions, ih]
    split_ifs <;> simp [ih]

/-- Claim C7 counterexample: the single-frame clip `[{t: 100}]` has
duration 100, not zero. -/
theorem claim7_counterexample : clip_duration clipC7 = 100 ∧ (100 : ℤ) ≠ 0 := by
  exact ⟨rfl, by decide⟩

/-- Claim C7 (amended): at a render tick where an active action with
non-empty frames has elapsed at least its clip duration, a looping action
restarts (`start_time := now`, sampled at elapsed `0`) and a non-looping
action is removed from the active list contributing no frame; a
single-frame clip's duration equals its sole frame's `t` (zero only when
that `t` is zero) and, while sampled, it always yields its single frame
(a static pose). -/
theorem claim7 (now : ℚ) (pre post : List ActionState) (a : ActionState)
    (hne : a.frames ≠ [])
    (hexp : (clip_duration a.frames : ℚ) ≤ (now - a.startTime) * 1000) :
    (a.loop = true → process_actions now (pre ++ a :: post) =
      ((process_actions now pre).1 ++
        { a with startTime := now } :: (process_actions now post).1,
       (process_actions now pre).2 ++
        find_frame a.frames 0 :: (process_actions now post).2)) ∧
    (a.loop = false → process_actions now (pre ++ a :: post) =
      ((process_actions now pre).1 ++ (process_actions now post).1,
       (process_actions now pre).2 ++ (process_actions now post).2)) ∧
    (∀ f : Frame, clip_duration [f] = f.tD) ∧
    (∀ (f : Frame) (e : ℚ), find_frame [f] e = f) := by
  have hie : a.frames.isEmpty = false := by simp [List.isEmpty_iff, hne]
  have hexp' : (now - a.startTime) * 1000 ≥ (clip_duration a.frames : ℚ) := hexp
  refine ⟨?_, ?_, fun _ => rfl, fun _ _ => rfl⟩
  · intro hloop
    rw [process_actions_append now pre (a :: post)]
    have hcons : process_actions now (a :: post) =
        ({ a with startTime := now } :: (process_actions now post).1,
         find_frame a.frames 0 :: (process_actions now post).2) := by
      simp only [process_actions, hie]
      rw [if_neg (by simp), if_pos hexp', if_pos hloop]
    rw [hcons]
  · intro hloop
    rw [process_actions_append now pre (a :: post)]
    have hcons : process_actions now (a :: post) =
        ((process_actions now post).1, (process_actions now post).2) := by
      simp only [process_actions, hie]
      rw [if_neg (by simp), if_pos hexp', if_neg (by simp [hloop])]
    rw [hcons]

/-- Claim C7 witness: a concrete expired non-looping single-frame action
is dropped and contributes nothing. -/
theorem claim7_witness :
    (aW7.frames ≠ []) ∧
    ((clip_duration aW7.frames : ℚ) ≤ (1 - aW7.startTime) * 1000) ∧
    process_actions 1 ([] ++ aW7 :: []) =
      ((process_actions 1 []).1 ++ (process_actions 1 []).1,
       (process_actions 1 []).2 ++ (process_actions 1 []).2) := by
  have hne : aW7.frames ≠ [] := by simp [aW7]
  have hexp : (clip_duration aW7.frames : ℚ) ≤ (1 - aW7.startTime) * 1000 := by
    have hd : clip_duration aW7.frames = 0 := rfl
    rw [hd]
    norm_num [aW7]
  exact ⟨hne, hexp, (claim7 1 [] [] aW7 hne hexp).2.1 rfl⟩

theorem quat_normalize_inverse_mul (r : Quat) :
    quat_normalize (quat_multiply (quat_inverse r) r) = quat_identity := by
  have hprod : quat_multiply (quat_inverse r) r =
      ⟨0, 0, 0, r.x * r.x + r.y * r.y + r.z * r.z + r.w * r.w⟩ := by
    unfold quat_multiply quat_inverse
    congr 1 <;> ring
  rw [hprod]
  set s : ℝ := r.x * r.x + r.y * r.y + r.z * r.z + r.w * r.w with hs
  have hs0 : 0 ≤ s :=
    add_nonneg (add_nonneg (add_nonneg (mul_self_nonneg r.x) (mul_self_nonneg r.y))
      (mul_self_nonneg r.z)) (mul_self_nonneg r.w)
  unfold quat_normalize
  dsimp only
  have hmag : Real.sqrt ((0 : ℝ) * 0 + 0 * 0 + 0 * 0 + s * s) = s := by
    have he : (0 : ℝ) * 0 + 0 * 0 + 0 * 0 + s * s = s * s := by ring
    rw [he, Real.sqrt_mul_self hs0]
  rw [hmag]
  by_cases h : s < 1e-10
  · rw [if_pos h]
  · rw [if_neg h]
    have hpos : (0 : ℝ) < s := lt_of_lt_of_le (by norm_num) (not_lt.mp h)
    unfold quat_identity
    congr 1 <;> simp [hpos.ne']

/-- Claim C5: for every non-empty absolute clip, the first output frame
of `convert_to_relative` keeps the input's first timestamp, has every
blendshape delta equal to `0`, and has every bone at position `[0,0,0]`
with rotation within `1e-6` of the identity quaternion (in fact exactly
the identity). -/
theorem claim5 (f0 : Frame) (rest : List Frame) :
    (convert_to_relative (f0 :: rest)).head? = some (rel_frame f0 f0) ∧
    (rel_frame f0 f0).t = f0.t ∧
    (∀ n v, (rel_frame f0 f0).blendshapes.lookup n = some v → v = 0) ∧
    (∀ n b, ((rel_frame f0 f0).bones.getD []).lookup n = some b →
      b.pos = (0, 0, 0) ∧ |b.rot.x - 0| ≤ 1e-6 ∧ |b.rot.y - 0| ≤ 1e-6 ∧
        |b.rot.z - 0| ≤ 1e-6 ∧ |b.rot.w - 1| ≤ 1e-6) := by
  have hbs : (rel_frame f0 f0).blendshapes = rel_bs f0.blendshapes f0.blendshapes := by
    unfold rel_frame
    split <;> rfl
  have ht : (rel_frame f0 f0).t = f0.t := by
    unfold rel_frame
    split <;> rfl
  refine ⟨by simp [convert_to_relative], ht, ?_, ?_⟩
  · intro n v h
    rw [hbs] at h
    unfold rel_bs at h
    have hv := lookup_keyed_val _ n v _ h
    rw [hv]
    exact sub_self _
  · intro n b h
    cases hbones : (rel_frame f0 f0).bones with
    | none => rw [hbones] at h; simp at h
    | some bl =>
      have hbl : bl = rel_bones (f0.bones.getD []) (f0.bones.getD []) := by
        unfold rel_frame at hbones
        split at hbones
        · simp at hbones
        · simpa using hbones.symm
      rw [hbones] at h
      simp only [Option.getD_some] at h
      rw [hbl] at h
      unfold rel_bones at h
      have hb := lookup_keyed_val _ n b _ h
      rw [hb, quat_normalize_inverse_mul]
      refine ⟨rfl, ?_, ?_, ?_, ?_⟩ <;> norm_num [quat_identity]

/-- Claim C5 witness: the conversion evaluated at a concrete absolute
frame with blendshape `Joy` and bone `Head`. -/
theorem claim5_witness :
    ((rel_frame f0W5 f0W5).blendshapes.lookup "Joy" = some 0 ∧ (0 : ℚ) = 0) ∧
    (((rel_frame f0W5 f0W5).bones.getD []).lookup "Head" = some bW5 ∧
      (bW5.pos = (0, 0, 0) ∧ |bW5.rot.x - 0| ≤ 1e-6 ∧ |bW5.rot.y - 0| ≤ 1e-6 ∧
        |bW5.rot.z - 0| ≤ 1e-6 ∧ |bW5.rot.w - 1| ≤ 1e-6)) := by
  have hl : (rel_frame f0W5 f0W5).blendshapes.lookup "Joy" = some 0 := by
    norm_num [rel_frame, f0W5, rel_bs, keys_union, bs_keys, getD, List.lookup]
  have hb : ((rel_frame f0W5 f0W5).bones.getD []).lookup "Head" = some bW5 := rfl
  exact ⟨⟨hl, (claim5 f0W5 []).2.2.1 "Joy" 0 hl⟩,
         hb, (claim5 f0W5 []).2.2.2 "Head" bW5 hb⟩

/-- Claim C6: no outbound bone message of `send_frame` or
`apply_rest_pose` ever carries the name `Hips`, for every frame, rest
pose and `include_bones` flag. -/
theorem claim6 (rest : BoneMap) (frame : Frame) (inc : Bool) :
    ((send_frame rest frame inc).all fun m => !(msg_is_hips m)) = true ∧
    ((apply_rest_pose rest).all fun m => !(msg_is_hips m)) = true := by
  constructor
  · rw [List.all_eq_true]
    intro m hm
    unfold send_frame at hm
    rcases List.mem_append.mp hm with h1 | h2
    · rcases List.mem_append.mp h1 with ha | hap
      · rcases List.mem_map.mp ha with ⟨kv, _, hmv⟩
        rw [← hmv]
        rfl
      · have : m = Msg.blendApply := by simpa using hap
        rw [this]
        rfl
    · rcases List.mem_map.mp h2 with ⟨kv, hkv, hmv⟩
      have hne : kv.1 ≠ "Hips" := by simpa using List.of_mem_filter hkv
      rw [← hmv]
      simp [msg_is_hips, hne]
  · rw [List.all_eq_true]
    intro m hm
    unfold apply_rest_pose at hm
    rcases List.mem_map.mp hm with ⟨kv, hkv, hmv⟩
    have hne : kv.1 ≠ "Hips" := by simpa using List.of_mem_filter hkv
    rw [← hmv]
    simp [msg_is_hips, hne]

-- ── Reset-path lemmas (used by claim C3) ─────────────────────────────────

theorem clamp_blendshapes_zero_map (names : List String) :
    clamp_blendshapes (names.map fun n => (n, (0 : ℚ))) =
      names.map fun n => (n, (0 : ℚ)) := by
  have hstage : clamp_stage (names.map fun n => (n, (0 : ℚ))) =
      names.map fun n => (n, (0 : ℚ)) := by
    unfold clamp_stage
    rw [List.map_map]
    refine List.map_congr_left ?_
    intro n _
    simp [Function.comp, clamp01_zero]
  have hget : ∀ k, getD (clamp_stage (names.map fun n => (n, (0 : ℚ)))) k 0 = 0 := by
    intro k
    rw [hstage]
    unfold getD
    cases hl : (names.map fun n => (n, (0 : ℚ))).lookup k with
    | none => simp
    | some v =>
      have hv := lookup_keyed_val (fun _ => (0 : ℚ)) k v names hl
      simp [hv]
  have hE : expr_eye (names.map fun n => (n, (0 : ℚ))) = 0 := by
    unfold expr_eye
    rw [hget "Joy", hget "Angry"]
    simp
  unfold clamp_blendshapes
  rw [if_neg (by rw [hE]; norm_num), hstage]

theorem send_reset_spec (rest : BoneMap) (s : PlayerState)
    (hIdleF : s.idleFrames = []) (hAct : s.activeActions = []) :
    (send_reset rest s).1.dirtyBlendshapes = [] ∧
    (send_reset rest s).1.dirtyBones = [] ∧
    (∀ n ∈ s.dirtyBlendshapes, Msg.blendVal n 0 ∈ (send_reset rest s).2) ∧
    (∀ m ∈ (send_reset rest s).2, ∀ nm px py pz r, m = Msg.bonePos nm px py pz r →
      nm ∈ bone_keys rest ∧ nm ≠ "Hips") := by
  have hnames : (s.dirtyBlendshapes
      ++ ((s.activeActions.map fun a => clip_bs_names a.frames).flatten)
      ++ clip_bs_names s.idleFrames).dedup = s.dirtyBlendshapes.dedup := by
    rw [hIdleF, hAct]
    simp [clip_bs_names]
  refine ⟨rfl, rfl, ?_, ?_⟩
  · intro n hn
    unfold send_reset
    rw [hnames]
    have hmem : n ∈ s.dirtyBlendshapes.dedup := List.mem_dedup.mpr hn
    have hne : s.dirtyBlendshapes.dedup.isEmpty = false := by
      cases he : s.dirtyBlendshapes.dedup with
      | nil => rw [he] at hmem; simp at hmem
      | cons _ _ => rfl
    simp only [hne, Bool.false_eq_true, if_false]
    unfold send_frame
    rw [clamp_blendshapes_zero_map]
    refine List.mem_append.mpr (Or.inl (List.mem_append.mpr (Or.inl ?_)))
    rw [List.map_map]
    exact List.mem_map.mpr ⟨n, hmem, rfl⟩
  · intro m hm nm px py pz r hmv
    unfold send_reset at hm
    rw [hnames] at hm
    by_cases hne : s.dirtyBlendshapes.dedup.isEmpty
    · simp only [hne, if_true] at hm
      simp at hm
    · simp only [hne, Bool.false_eq_true, if_false] at hm
      unfold send_frame at hm
      rw [clamp_blendshapes_zero_map] at hm
      rcases List.mem_append.mp hm with h1 | h2
      · rcases List.mem_append.mp h1 with ha | hap
        · rcases List.mem_map.mp ha with ⟨kv, _, hk⟩
          rw [← hk] at hmv
          simp at hmv
        · have : m = Msg.blendApply := by simpa using hap
          rw [this] at hmv
          simp at hmv
      · rcases List.mem_map.mp h2 with ⟨kv, hkv, hk⟩
        have hkne : kv.1 ≠ "Hips" := by simpa using List.of_mem_filter hkv
        have hkrest : kv ∈ rest := List.mem_of_mem_filter hkv
        rw [← hk] at hmv
        have h1 : nm = kv.1 := by
          cases hmv
          rfl
        rw [h1]
        exact ⟨List.mem_map.mpr ⟨kv, hkrest, rfl⟩, hkne⟩

theorem render_step_expire (now ep : ℚ) (rest : BoneMap) (s : PlayerState)
    (frames : List Frame) (st : ℚ)
    (hIdle : s.idleActive = false)
    (hAct : s.activeActions = [⟨frames, false, st⟩])
    (hNE : frames ≠ [])
    (hExp : (clip_duration frames : ℚ) ≤ (now - st) * 1000) :
    render_step now ep rest s = ({ s with activeActions := [] }, [], false) := by
  have hie : frames.isEmpty = false := by simp [List.isEmpty_iff, hNE]
  have hpr : process_actions now [(⟨frames, false, st⟩ : ActionState)] = ([], []) := by
    simp only [process_actions, hie]
    rw [if_neg (by simp)]
    rw [if_pos hExp]
    simp
  unfold render_step
  rw [hIdle, hAct, hpr]
  simp [merge_multiple_actions]

theorem render_step_exit (now ep : ℚ) (rest : BoneMap) (s : PlayerState)
    (hIdle : s.idleActive = false) (hAct : s.activeActions = []) :
    render_step now ep rest s = ((send_reset rest s).1, (send_reset rest s).2, true) := by
  unfold render_step
  rw [hIdle, hAct]
  simp

/-- Claim C3 counterexample: a finished non-looping action whose clip
mentions the bone `Head` (with `Head` absent from the rest pose).  The
tick at which the action expires emits nothing, and the reset emission on
the next tick is non-empty but carries no bone message for `Head` at all
(in particular no identity rotation), contradicting the claim. -/
theorem claim3_counterexample :
    (render_step 1 0 restC3 sC3).2.1 = [] ∧
    ((render_step (31/30) 0 restC3 (render_step 1 0 restC3 sC3).1).2.1.all
      fun m => !(msg_is_bone_named "Head" m)) = true ∧
    (render_step (31/30) 0 restC3 (render_step 1 0 restC3 sC3).1).2.1.isEmpty
      = false := by
  have hd : clip_duration clipC3 = 100 := rfl
  have h1 : render_step 1 0 restC3 sC3 = ({ sC3 with activeActions := [] }, [], false) := by
    refine render_step_expire 1 0 restC3 sC3 clipC3 0 rfl rfl (by simp [clipC3]) ?_
    rw [hd]
    norm_num
  rw [h1]
  set s1 : PlayerState := { sC3 with activeActions := [] } with hs1
  have h2 : render_step (31/30) 0 restC3 s1 =
      ((send_reset restC3 s1).1, (send_reset restC3 s1).2, true) :=
    render_step_exit (31/30) 0 restC3 s1 rfl rfl
  rw [h2]
  have hspec := send_reset_spec restC3 s1 rfl rfl
  refine ⟨rfl, ?_, ?_⟩
  · rw [List.all_eq_true]
    intro m hm
    cases m with
    | blendVal _ _ => rfl
    | blendApply => rfl
    | bonePos nm px py pz r =>
      have hmem := (hspec.2.2.2 _ hm nm px py pz r rfl).1
      have : nm = "Chest" := by simpa [restC3, bone_keys] using hmem
      simp [msg_is_bone_named, this]
  · have hdirty : "Sorrow" ∈ s1.dirtyBlendshapes := by
      simp [hs1, sC3, clipC3, clip_bs_names, bs_keys]
    have hmem := hspec.2.2.1 "Sorrow" hdirty
    cases hmsg : (send_reset restC3 s1).2 with
    | nil => rw [hmsg] at hmem; simp at hmem
    | cons _ _ => rfl

/-- Claim C3 (amended): after a non-looping action finishes with no other
action and no idle, the expiry tick removes the action and emits nothing;
the following tick exits the render loop and emits the reset frame, which
assigns `0.0` to every blendshape name mentioned anywhere in the clip,
whose only bone messages are rest-pose bones other than `Hips` (so no
identity-rotation reset for the clip's bones), and after which both
dirty-name sets are empty. -/
theorem claim3 (frames : List Frame) (st now1 now2 ep : ℚ) (rest : BoneMap)
    (s : PlayerState)
    (hIdle : s.idleActive = false) (hIdleF : s.idleFrames = [])
    (hAct : s.activeActions = [⟨frames, false, st⟩])
    (hNE : frames ≠ [])
    (hExp : (clip_duration frames : ℚ) ≤ (now1 - st) * 1000)
    (hDirty : s.dirtyBlendshapes = (clip_bs_names frames).dedup) :
    (render_step now1 ep rest s).2.1 = [] ∧
    (render_step now1 ep rest s).2.2 = false ∧
    (render_step now1 ep rest s).1.activeActions = [] ∧
    (render_step now2 ep rest (render_step now1 ep rest s).1).2.2 = true ∧
    (∀ n ∈ clip_bs_names frames,
      Msg.blendVal n 0 ∈ (render_step now2 ep rest (render_step now1 ep rest s).1).2.1) ∧
    (∀ m ∈ (render_step now2 ep rest (render_step now1 ep rest s).1).2.1,
      ∀ nm px py pz r, m = Msg.bonePos nm px py pz r →
        nm ∈ bone_keys rest ∧ nm ≠ "Hips") ∧
    (render_step now2 ep rest (render_step now1 ep rest s).1).1.dirtyBlendshapes = [] ∧
    (render_step now2 ep rest (render_step now1 ep rest s).1).1.dirtyBones = [] := by
  have h1 : render_step now1 ep rest s = ({ s with activeActions := [] }, [], false) :=
    render_step_expire now1 ep rest s frames st hIdle hAct hNE hExp
  rw [h1]
  set s1 : PlayerState := { s with activeActions := [] } with hs1
  have h2 : render_step now2 ep rest s1 =
      ((send_reset rest s1).1, (send_reset rest s1).2, true) :=
    render_step_exit now2 ep rest s1 (by simp [hs1, hIdle]) rfl
  rw [h2]
  have hspec := send_reset_spec rest s1 (by simp [hs1, hIdleF]) rfl
  refine ⟨rfl, rfl, rfl, rfl, ?_, hspec.2.2.2, hspec.1, hspec.2.1⟩
  intro n hn
  refine hspec.2.2.1 n ?_
  have : s1.dirtyBlendshapes = (clip_bs_names frames).dedup := by
    simp [hs1, hDirty]
  rw [this]
  exact List.mem_dedup.mpr hn

/-- Claim C3 witness: the two-tick reset behaviour evaluated on a
concrete finished bone-free action clip mentioning the blendshape
`Joy`, with an empty rest pose. -/
theorem claim3_witness :
    (clipW3 ≠ []) ∧
    ((clip_duration clipW3 : ℚ) ≤ (1 - 0) * 1000) ∧
    (render_step 1 0 [] sW3).2.1 = [] ∧
    (render_step (31/30) 0 [] (render_step 1 0 [] sW3).1).2.2 = true ∧
    Msg.blendVal "Joy" 0 ∈ (render_step (31/30) 0 [] (render_step 1 0 [] sW3).1).2.1 ∧
    (render_step (31/30) 0 [] (render_step 1 0 [] sW3).1).1.dirtyBlendshapes = [] := by
  have hne : clipW3 ≠ [] := by simp [clipW3]
  have hexp : (clip_duration clipW3 : ℚ) ≤ (1 - 0) * 1000 := by
    have hd : clip_duration clipW3 = 0 := rfl
    rw [hd]
    norm_num
  have hall := claim3 clipW3 0 1 (31/30) 0 [] sW3 rfl rfl rfl hne hexp rfl
  have hjoy : "Joy" ∈ clip_bs_names clipW3 := by
    simp [clipW3, clip_bs_names, bs_keys]
  exact ⟨hne, hexp, hall.1, hall.2.2.2.1, hall.2.2.2.2.1 "Joy" hjoy,
         hall.2.2.2.2.2.2.1⟩

end VMC
